import Mathlib

/-!
Verification development for the `diag` package (repo jaw0/acdiag, file
`diag.go`): an AC-style diagnostics and logging facility.  The Go source is
shallowly embedded: strings are `List Char` where character-level reasoning
is needed and `String` where they are only compared as keys; Go maps are
association lists with Go's zero-value semantics for missing keys (and an
`Option` wrapping where a nil map is distinguishable from an empty one);
`time.Time` and `time.Duration` are `Int` nanoseconds; a Go runtime panic is
modelled by an `Option`-valued function returning `none`.
-/

namespace Acdiag

/-- Go map read, `map[string]bool` flavour: a missing key yields the zero
value `false` (also used for reads of a nil map, which Go permits). -/
def bmapGet : List (String × Bool) → String → Bool
  | [], _ => false
  | (a, w) :: rest, k => if a = k then w else bmapGet rest k

/-- Go map assignment `m[k] = v` on a non-nil `map[string]bool`. -/
def bmapSet : List (String × Bool) → String → Bool → List (String × Bool)
  | [], k, v => [(k, v)]
  | (a, w) :: rest, k, v =>
    if a = k then (a, v) :: rest else (a, w) :: bmapSet rest k v

/-- Go map read, `map[string]time.Time` flavour: a missing key yields the
zero time, modelled as `0`. -/
def imapGet : List (String × Int) → String → Int
  | [], _ => 0
  | (a, w) :: rest, k => if a = k then w else imapGet rest k

/-- Go map assignment `m[k] = v` on a `map[string]time.Time`. -/
def imapSet : List (String × Int) → String → Int → List (String × Int)
  | [], k, v => [(k, v)]
  | (a, w) :: rest, k, v =>
    if a = k then (a, v) :: rest else (a, w) :: imapSet rest k v

/-- `syslog.Priority` severity levels (the eight used by the package). -/
inductive Priority where
  | emerg | alert | crit | err | warning | notice | info | debug
  deriving DecidableEq, Repr

/-- `syslog.Priority` facility codes, the targets of the fixed `prioName`
table in `diag.go`. -/
inductive Facility where
  | kern | user | mail | daemon | auth | syslog | lpr | news | uucp | cron
  | authpriv | ftp
  | local0 | local1 | local2 | local3 | local4 | local5 | local6 | local7
  deriving DecidableEq, Repr

/-- Lookup in the facility table (Go `prioName[s]`): `none` models the
`ok == false` case. -/
def facGet : List (String × Facility) → String → Option Facility
  | [], _ => none
  | (a, w) :: rest, k => if a = k then some w else facGet rest k

/-- `type Diag struct` from diag.go: a logger handle.  The Go field
`section` keeps its name via guillemets. -/
structure Diag where
  «section» : String
  uplevel : Nat
  mailTo : String
  mailFrom : String
  progname : String
  debugAll : Bool
  useStderr : Bool
  deriving DecidableEq, Repr

/-- `type Config struct` from diag.go.  `Debug` is `none` for a nil Go map
(distinguished because assigning to a nil map panics while reading from one
does not); `MailRateLimit` is a `time.Duration` in nanoseconds. -/
structure Config where
  MailTo : String
  MailFrom : String
  MailRateLimit : Int
  Sendmail : String
  Facility : String
  ProgName : String
  Debug : Option (List (String × Bool))
  deriving DecidableEq, Repr

/-- `type logconf struct` from diag.go: the dispatch policy bundle. -/
structure logconf where
  logprio : Priority
  toStderr : Bool
  toEmail : Bool
  withInfo : Bool
  withTrace : Bool
  deriving DecidableEq, Repr

/-- `var config = &Config{}`: the process-wide configuration before any
`SetConfig` call, all fields at their zero values (`Debug` is a nil map). -/
def initialConfig : Config :=
  { MailTo := "", MailFrom := "", MailRateLimit := 0, Sendmail := "",
    Facility := "", ProgName := "", Debug := none }

/-- `var defaultDiag = &Diag{section: "default", useStderr: true, uplevel: 3}`
(the `-D` command-line flag, out of model, can set `debugAll`). -/
def defaultDiag : Diag :=
  { «section» := "default", uplevel := 3, mailTo := "", mailFrom := "",
    progname := "", debugAll := false, useStderr := true }

/-- `func Logger(sect string) *Diag`. -/
def Logger (sect : String) : Diag :=
  { «section» := sect, uplevel := 2, mailTo := "", mailFrom := "",
    progname := "", debugAll := false, useStderr := true }

/-- The five leveled entry points of the package. -/
inductive Kind where
  | verbose | debug | problem | bug | fatal
  deriving DecidableEq, Repr

/-- The `logconf` literal each leveled method passes to `diag`, read off the
bodies of `Diag.Verbose`, `Diag.Debug`, `Diag.Problem`, `Diag.Bug` and
`Diag.Fatal` (Go zero-values the omitted fields). -/
def dispatchConf : Kind → logconf
  | .verbose =>
    { logprio := .info, toStderr := true, toEmail := false,
      withInfo := false, withTrace := false }
  | .debug =>
    { logprio := .debug, toStderr := true, toEmail := false,
      withInfo := true, withTrace := false }
  | .problem =>
    { logprio := .warning, toStderr := true, toEmail := true,
      withInfo := true, withTrace := false }
  | .bug =>
    { logprio := .err, toStderr := true, toEmail := true,
      withInfo := true, withTrace := true }
  | .fatal =>
    { logprio := .err, toStderr := true, toEmail := true,
      withInfo := true, withTrace := true }

/-- Whether the method's body ends by terminating the process: only
`Diag.Fatal` calls `os.Exit(-1)` after its `diag` call. -/
def exitsAfter : Kind → Bool
  | .fatal => true
  | _ => false

/-- Result of `runtime.Caller` + `runtime.FuncForPC` as the `diag` function
consumes it: resolved source path, line, and the qualified function name
(`none` when `FuncForPC` returned nil).  The whole triple is absent when
`runtime.Caller` reported `ok == false`. -/
abbrev CallerInfo := List Char × Nat × Option (List Char)

/-- `strings.LastIndex(file, sub)` for a one-character separator, on
`List Char`: the index of the last occurrence (`none` for Go's `-1`). -/
def lastIndexOf (c : Char) : List Char → Option Nat
  | [] => none
  | a :: rest =>
    match lastIndexOf c rest with
    | some i => some (i + 1)
    | none => if a = c then some 0 else none

/-- `func cleanFilename(file string) string`: trim a full pathname to
`dir/file.go`.  Searches for the last `/`; if found at `si`, searches
`file[0 : si-1]` for a second-to-last `/` and returns everything after it
(else after `si`).  When `si = 0` the Go slice `file[0 : si-1]` has a
negative bound and panics, modelled as `none`. -/
def cleanFilename (file : List Char) : Option (List Char) :=
  match lastIndexOf '/' file with
  | none => some file
  | some si =>
    if si = 0 then none
    else
      match lastIndexOf '/' (file.take (si - 1)) with
      | some ssi => some (file.drop (ssi + 1))
      | none => some (file.drop (si + 1))

/-- `func cleanFunName(n string) string`: drop everything up to and
including the last `.` of the qualified function name. -/
def cleanFunName (n : List Char) : List Char :=
  match lastIndexOf '.' n with
  | none => n
  | some dot => n.drop (dot + 1)

/-- `strings.Split(l, "/")`: the slash-separated segments of a path
(empty segments included, as in Go). -/
def splitSlash : List Char → List (List Char)
  | [] => [[]]
  | c :: rest =>
    match splitSlash rest with
    | [] => [[]]
    | s :: ss => if c = '/' then [] :: s :: ss else (c :: s) :: ss

/-- The trailing-newline removal at the top of `func diag`:
`if format[len(format)-1] == '\n' { format = format[:len(format)-1] }`.
Indexing `format[len(format)-1]` on an empty string panics in Go
(index out of range), modelled as `none`. -/
def stripTrailingNL (format : List Char) : Option (List Char) :=
  match format.getLast? with
  | none => none
  | some c => if c = '\n' then some format.dropLast else some format

/-- The fragment of `fmt.Sprintf` this development evaluates: literal
characters are copied, `%s` consumes the next argument, `%%` yields `%`
(Go renders a missing `%s` argument as `%!s(MISSING)`).  The source calls
the real `fmt.Sprintf`; theorems below only apply this to format strings
within this fragment. -/
def sprintf : List Char → List (List Char) → List Char
  | [], _ => []
  | [c], _ => [c]
  | c :: d :: rest, args =>
    if c = '%' ∧ d = 's' then
      match args with
      | a :: more => a ++ sprintf rest more
      | [] => "%!s(MISSING)".toList ++ sprintf rest []
    else if c = '%' ∧ d = '%' then
      '%' :: sprintf rest args
    else
      c :: sprintf (d :: rest) args

/-- The `cf.withInfo` block of `func diag`: build the call-site tag.  A
resolved caller gives `fmt.Sprintf("%s:%d %s(): ", fileshort, line, funName)`
(or `"%s:%d ?(): "` when `FuncForPC` was nil); an unresolved caller gives
the literal `"?:?: "`.  `none` propagates the `cleanFilename` panic. -/
def callsiteTag (caller : Option CallerInfo) : Option (List Char) :=
  match caller with
  | none => some ['?', ':', '?', ':', ' ']
  | some (file, line, fn) =>
    match cleanFilename file with
    | none => none
    | some fileshort =>
      match fn with
      | some nm =>
        some (fileshort ++ ':' :: (Nat.repr line).toList
          ++ ' ' :: cleanFunName nm ++ ['(', ')', ':', ' '])
      | none =>
        some (fileshort ++ ':' :: (Nat.repr line).toList
          ++ [' ', '?', '(', ')', ':', ' '])

/-- The formatting tail of `func diag`: strip one trailing newline from the
format string, apply the arguments, and append to the (possibly empty)
call-site tag.  `none` models the panic on an empty format string. -/
def formatMessage (tag format : List Char) (args : List (List Char)) :
    Option (List Char) :=
  match stripTrailingNL format with
  | none => none
  | some f => some (tag ++ sprintf f args)

/-- What one `diag` call hands to the sinks: the line written to stderr (if
any), the priority and text forwarded to syslog (if the sink is open), and
whether the email path is invoked. -/
structure Dispatch where
  stderrOut : Option (List Char)
  syslogOut : Option (Priority × List Char)
  emailReq : Bool
  deriving DecidableEq, Repr

/-- A `Dispatch` in which nothing was formatted or delivered. -/
def emptyDispatch : Dispatch :=
  { stderrOut := none, syslogOut := none, emailReq := false }

/-- `func diag(cf logconf, d *Diag, format string, args []interface{})`.
The caller triple stands for what `runtime.Caller(d.uplevel)` returned; the
open syslog sink (global `slog`) is passed in; `none` models a panic
(empty format string, or `cleanFilename` on a pathological path). -/
def diag (lc : logconf) (d : Diag) (caller : Option CallerInfo)
    (format : List Char) (args : List (List Char)) (slog : Option Facility) :
    Option Dispatch :=
  match (if lc.withInfo then callsiteTag caller else some []) with
  | none => none
  | some tag =>
    match formatMessage tag format args with
    | none => none
    | some out =>
      some { stderrOut := if lc.toStderr && d.useStderr then some out else none,
             syslogOut := if slog.isSome then some (lc.logprio, out) else none,
             emailReq := lc.toEmail }

/-- Read of the `Debug` map with Go nil-map semantics (`cf.Debug[k]` on a
nil map is `false`). -/
def lookupDebug : Option (List (String × Bool)) → String → Bool
  | none, _ => false
  | some m, k => bmapGet m k

/-- The gate at the top of `func (d *Diag) Debug`:
`!d.debugAll && !cf.Debug[d.section] && !cf.Debug["all"]`. -/
def debugSuppressed (d : Diag) (cf : Config) : Bool :=
  !d.debugAll && !lookupDebug cf.Debug d.«section» && !lookupDebug cf.Debug "all"

/-- `func (d *Diag) Debug`: consult the live configuration, return without
formatting or dispatching when the gate suppresses, else run `diag` with
the debug bundle. -/
def Diag.Debug (d : Diag) (cf : Config) (caller : Option CallerInfo)
    (format : List Char) (args : List (List Char)) (slog : Option Facility) :
    Option Dispatch :=
  if debugSuppressed d cf then some emptyDispatch
  else diag (dispatchConf .debug) d caller format args slog

/-- `func (d *Diag) Verbose`. -/
def Diag.Verbose (d : Diag) (caller : Option CallerInfo)
    (format : List Char) (args : List (List Char)) (slog : Option Facility) :
    Option Dispatch :=
  diag (dispatchConf .verbose) d caller format args slog

/-- `func (d *Diag) Problem`. -/
def Diag.Problem (d : Diag) (caller : Option CallerInfo)
    (format : List Char) (args : List (List Char)) (slog : Option Facility) :
    Option Dispatch :=
  diag (dispatchConf .problem) d caller format args slog

/-- `func (d *Diag) Bug`. -/
def Diag.Bug (d : Diag) (caller : Option CallerInfo)
    (format : List Char) (args : List (List Char)) (slog : Option Facility) :
    Option Dispatch :=
  diag (dispatchConf .bug) d caller format args slog

/-- `func (d *Diag) Fatal`: dispatch with the bug bundle, then `os.Exit(-1)`;
the `Bool` records that the process terminates. -/
def Diag.Fatal (d : Diag) (caller : Option CallerInfo)
    (format : List Char) (args : List (List Char)) (slog : Option Facility) :
    Option Dispatch × Bool :=
  (diag (dispatchConf .fatal) d caller format args slog, true)

/-- `const rateLimit = time.Minute`, in nanoseconds. -/
def rateLimit : Int := 60000000000

/-- `func (cf *Config) rateLimited(addr string) bool` together with its
effect on the global `mailSent` ledger: look up the recipient's last-sent
time (zero when absent), default the window to one minute when the
configured `MailRateLimit` is zero, and either record `now` and return
`false` (send permitted) or return `true` (blocked) leaving the ledger
unchanged.  `now` stands for `time.Now()`. -/
def rateLimited (cf : Config) (now : Int) (ledger : List (String × Int))
    (addr : String) : Bool × List (String × Int) :=
  let sent := imapGet ledger addr
  let limit := if cf.MailRateLimit = 0 then rateLimit else cf.MailRateLimit
  if sent + limit < now then (false, imapSet ledger addr now)
  else (true, ledger)

/-- The observable outcome of one `sendEmail` call: aborted before the
rate-limit check (empty effective To or From), suppressed by the rate
limiter, or a mail-transport process started with the given effective
To, From and program name. -/
inductive EmailOutcome where
  | aborted
  | limited
  | sent (recp frm prog : String)
  deriving DecidableEq, Repr

/-- `func sendEmail(d *Diag, txt string, withTrace bool)`, its decision
path: resolve the effective To/From/program name (handle override when
non-empty, else global config, else for the program name the process
executable's base name `pg`), return silently when either address is empty,
consult the rate limiter, and otherwise start the mail transport.  The
`getConfig() == nil` guard in the source never fires (the global starts as
`&Config{}`), so `cf` is taken non-optional; the message body and the
subprocess are outside the decision path modelled here. -/
def sendEmail (d : Diag) (cf : Config) (pg : String) (now : Int)
    (ledger : List (String × Int)) : EmailOutcome × List (String × Int) :=
  let mailTo := if d.mailTo = "" then cf.MailTo else d.mailTo
  let mailFrom := if d.mailFrom = "" then cf.MailFrom else d.mailFrom
  let prog0 := if d.progname = "" then cf.ProgName else d.progname
  let prog := if prog0 = "" then pg else prog0
  if mailTo = "" ∨ mailFrom = "" then (.aborted, ledger)
  else
    let r := rateLimited cf now ledger mailTo
    if r.1 then (.limited, r.2)
    else (.sent mailTo mailFrom prog, r.2)

/-- `var prioName = map[string]syslog.Priority{...}`: the fixed facility
table (all keys lower-case in the source). -/
def prioName : List (String × Facility) :=
  [("kern", .kern), ("user", .user), ("mail", .mail), ("daemon", .daemon),
   ("auth", .auth), ("syslog", .syslog), ("lpr", .lpr), ("news", .news),
   ("uucp", .uucp), ("cron", .cron), ("authpriv", .authpriv), ("ftp", .ftp),
   ("local0", .local0), ("local1", .local1), ("local2", .local2),
   ("local3", .local3), ("local4", .local4), ("local5", .local5),
   ("local6", .local6), ("local7", .local7)]

/-- The process-wide mutable state behind the lock: the active `Config`
(`var config`) and the syslog sink (`var slog`, `none` = closed). -/
structure GlobalState where
  config : Config
  slog : Option Facility
  deriving DecidableEq, Repr

/-- `func openSyslog(fac string)`: case-insensitive lookup of the facility
name; an unknown name returns leaving the sink closed.  The OS-level
`syslog.New` is modelled as succeeding (the source discards its error). -/
def openSyslog (fac : String) (st : GlobalState) : GlobalState :=
  match facGet prioName fac.toLower with
  | none => st
  | some p => { st with slog := some p }

/-- `func SetConfig(cf Config)`: replace the active configuration; when no
syslog sink is open, attempt to open one from the new facility name. -/
def SetConfig (cf : Config) (st : GlobalState) : GlobalState :=
  let st1 := { st with config := cf }
  if st1.slog = none then openSyslog cf.Facility st1 else st1

/-- `func getConfig() *Config`. -/
def getConfig (st : GlobalState) : Config := st.config

/-- `func SetDebugFlag(f string, v bool)`: `config.Debug[f] = v`.  When the
current configuration's `Debug` map is nil, Go panics (assignment to entry
in nil map), modelled as `none`. -/
def SetDebugFlag (f : String) (v : Bool) (cf : Config) : Option Config :=
  match cf.Debug with
  | none => none
  | some m => some { cf with Debug := some (bmapSet m f v) }

/-- `func (d *Diag) WithMailTo(e string) *Diag`: copy the handle, set
`mailTo` on the copy, return the copy.  The pair is (the receiver's value
after the call, the returned handle). -/
def Diag.WithMailTo (d : Diag) (e : String) : Diag × Diag :=
  (d, { d with mailTo := e })

/-- `func (d *Diag) WithMailFrom(e string) *Diag`, as `WithMailTo`. -/
def Diag.WithMailFrom (d : Diag) (e : String) : Diag × Diag :=
  (d, { d with mailFrom := e })

/-- `func (d *Diag) Logger(sect string) *Diag`: derive a child handle for a
new subsystem.  The pair is (the receiver's value after the call, the
returned child). -/
def Diag.Logger (d : Diag) (sect : String) : Diag × Diag :=
  (d, { d with «section» := sect })

/-- `func (d *Diag) SetDebugAll(x bool)`: assigns `d.debugAll` through the
receiver pointer and returns nothing.  The result is the receiver's value
after the call (the mutation is shared with every holder of the handle). -/
def Diag.SetDebugAll (d : Diag) (x : Bool) : Diag :=
  { d with debugAll := x }

/-- `func (d *Diag) SetStderr(x bool)`: assigns `d.useStderr` in place, as
`SetDebugAll`. -/
def Diag.SetStderr (d : Diag) (x : Bool) : Diag :=
  { d with useStderr := x }

/-! ## Helper lemmas -/

/-- Writing a key and reading it back yields the written value. -/
theorem bmapGet_set_self (k : String) (v : Bool) :
    ∀ m : List (String × Bool), bmapGet (bmapSet m k v) k = v
  | [] => by simp [bmapGet, bmapSet]
  | (a, w) :: rest => by
    by_cases h : a = k
    · simp [bmapGet, bmapSet, h]
    · simp [bmapGet, bmapSet, h, bmapGet_set_self k v rest]

/-- A nonempty list has a last element. -/
theorem getLast?_cons_isSome (c : Char) :
    ∀ fmt : List Char, ∃ x, (c :: fmt).getLast? = some x
  | [] => ⟨c, by simp⟩
  | d :: rest => by
    obtain ⟨x, hx⟩ := getLast?_cons_isSome d rest
    exact ⟨x, by rw [List.getLast?_cons_cons]; exact hx⟩

/-- A format string without `%` is copied verbatim by `sprintf`. -/
theorem sprintf_no_pct (args : List (List Char)) :
    ∀ l : List Char, '%' ∉ l → sprintf l args = l := by
  intro l
  induction l with
  | nil => intro _; rfl
  | cons c rest ih =>
    intro h
    cases rest with
    | nil => rfl
    | cons d rest2 =>
      have hc : c ≠ '%' := fun hcc => h (by simp [hcc])
      have h2 : '%' ∉ d :: rest2 := fun hmem => h (List.mem_cons_of_mem c hmem)
      simp only [sprintf]
      rw [if_neg (fun hand => hc hand.1), if_neg (fun hand => hc hand.1)]
      exact congrArg (List.cons c) (ih h2)

/-- `lastIndexOf` misses exactly when the character is absent. -/
theorem lastIndexOf_eq_none (c : Char) :
    ∀ l : List Char, c ∉ l → lastIndexOf c l = none
  | [], _ => rfl
  | a :: rest, h => by
    have h1 : c ∉ rest := fun hmem => h (List.mem_cons_of_mem a hmem)
    have h2 : a ≠ c := fun he => h (by simp [he])
    simp [lastIndexOf, lastIndexOf_eq_none c rest h1, h2]

/-- The last occurrence of `c` in `xs ++ c :: ys`, with `c` absent from
`ys`, is at index `xs.length`. -/
theorem lastIndexOf_append_cons (c : Char) (ys : List Char) (hys : c ∉ ys) :
    ∀ xs : List Char, lastIndexOf c (xs ++ c :: ys) = some xs.length
  | [] => by simp [lastIndexOf, lastIndexOf_eq_none c ys hys]
  | a :: xs => by
    simp [lastIndexOf, lastIndexOf_append_cons c ys hys xs]

/-! ## The claims -/

/-- C1: for every call kind the dispatch bundle is exactly the fixed table —
Verbose(info, stderr only), Debug(debug, stderr + call-site info),
Problem(warning, stderr + email + call-site info), Bug(error, stderr +
email + call-site info + stack trace), Fatal the same bundle as Bug — and
Fatal, alone among the five, terminates the process after dispatch. -/
theorem C1_dispatch_table :
    dispatchConf .verbose =
      { logprio := .info, toStderr := true, toEmail := false,
        withInfo := false, withTrace := false } ∧
    dispatchConf .debug =
      { logprio := .debug, toStderr := true, toEmail := false,
        withInfo := true, withTrace := false } ∧
    dispatchConf .problem =
      { logprio := .warning, toStderr := true, toEmail := true,
        withInfo := true, withTrace := false } ∧
    dispatchConf .bug =
      { logprio := .err, toStderr := true, toEmail := true,
        withInfo := true, withTrace := true } ∧
    dispatchConf .fatal = dispatchConf .bug ∧
    (∀ k, exitsAfter k = true ↔ k = .fatal) := by
  refine ⟨rfl, rfl, rfl, rfl, rfl, ?_⟩
  intro k
  cases k <;> simp [exitsAfter]

/-- C2: the rate-limit check blocks, leaving the ledger unchanged, exactly
when `now` is at or before the recipient's last-sent time plus the window;
otherwise it records `now` for the recipient and permits the send; a zero
configured window falls back to the one-minute default (60000000000 ns). -/
theorem C2_rateLimited_eq (cf : Config) (now : Int)
    (ledger : List (String × Int)) (addr : String) :
    rateLimited cf now ledger addr =
      if now ≤ imapGet ledger addr +
          (if cf.MailRateLimit = 0 then 60000000000 else cf.MailRateLimit)
      then (true, ledger)
      else (false, imapSet ledger addr now) := by
  simp only [rateLimited, rateLimit]
  by_cases h : imapGet ledger addr +
      (if cf.MailRateLimit = 0 then (60000000000 : Int) else cf.MailRateLimit) < now
  · rw [if_pos h, if_neg (by omega)]
  · rw [if_neg h, if_pos (by omega)]

/-- C3: the claim says every leveled call returns without raising, but the
code indexes `format[len(format)-1]` before stripping the newline, so a
Verbose call with an empty format string panics (modelled: `diag` returns
`none`). -/
theorem C3_empty_format_panics :
    diag (dispatchConf .verbose) defaultDiag none [] [] none = none := by
  decide

/-- C4 counterexample: `SetDebugAll` does not leave the original handle
unchanged — it assigns the receiver's field in place (and returns no new
handle), so after the call the handle differs from its old value. -/
theorem C4_counterexample : Diag.SetDebugAll defaultDiag true ≠ defaultDiag := by
  decide

/-- C4 amended: `WithMailTo`, `WithMailFrom` and the child-`Logger`
derivation copy-then-mutate — they return a fresh handle differing only in
the one field and leave every field of the receiver unchanged — while
`SetDebugAll` and `SetStderr` return no new handle and instead mutate the
receiver's field in place. -/
theorem C4_amended (d : Diag) (e f s : String) (x y : Bool) :
    (d.WithMailTo e).1 = d ∧ (d.WithMailTo e).2 = { d with mailTo := e } ∧
    (d.WithMailFrom f).1 = d ∧ (d.WithMailFrom f).2 = { d with mailFrom := f } ∧
    (d.Logger s).1 = d ∧ (d.Logger s).2 = { d with «section» := s } ∧
    d.SetDebugAll x = { d with debugAll := x } ∧
    d.SetStderr y = { d with useStderr := y } :=
  ⟨rfl, rfl, rfl, rfl, rfl, rfl, rfl, rfl⟩

/-- C5: a Debug call is suppressed (nothing formatted or dispatched) exactly
when the handle's `debugAll` is false and the live configuration's debug map
holds `true` neither for the handle's section nor for the key "all"; setting
either key to `true` in the map consulted at call time un-suppresses. -/
theorem C5_debug_gate (d : Diag) (cf : Config) (caller : Option CallerInfo)
    (format : List Char) (args : List (List Char)) (slog : Option Facility) :
    (debugSuppressed d cf = true ↔
      d.debugAll = false ∧ lookupDebug cf.Debug d.«section» = false ∧
      lookupDebug cf.Debug "all" = false) ∧
    (Diag.Debug d cf caller format args slog =
      if debugSuppressed d cf then some emptyDispatch
      else diag (dispatchConf .debug) d caller format args slog) ∧
    (∀ m, debugSuppressed d { cf with Debug := some (bmapSet m d.«section» true) } = false) ∧
    (∀ m, debugSuppressed d { cf with Debug := some (bmapSet m "all" true) } = false) := by
  refine ⟨by simp [debugSuppressed, and_assoc], rfl, ?_, ?_⟩
  · intro m
    simp [debugSuppressed, lookupDebug, bmapGet_set_self]
  · intro m
    simp [debugSuppressed, lookupDebug, bmapGet_set_self]

/-- C6 counterexample: for the resolved source path `a/b//c.go` the code
keeps `b//c.go`, which splits into three slash-separated path segments —
more than the "at most the last two path segments" the claim states. -/
theorem C6_counterexample :
    cleanFilename ("a/b//c.go".toList) = some ("b//c.go".toList) ∧
    2 < (splitSlash ("b//c.go".toList)).length := by
  decide

/-- C6 amended: for every successfully resolved caller whose source path
ends in `.../mid/base` with `mid` nonempty and neither `mid` nor `base`
containing a further slash (no adjacent separators), the file part kept is
exactly the last two path segments `mid/base`, the function part is the
qualified name with everything up to and including the last `.` stripped,
and the call-site tag is exactly `mid/base:line func(): `. -/
theorem C6_amended (pre mid base qual short : List Char) (line : Nat)
    (hm : '/' ∉ mid) (hb : '/' ∉ base) (hne : mid ≠ []) (hq : '.' ∉ short) :
    cleanFilename (pre ++ '/' :: (mid ++ '/' :: base)) = some (mid ++ '/' :: base) ∧
    cleanFunName (qual ++ '.' :: short) = short ∧
    callsiteTag (some (pre ++ '/' :: (mid ++ '/' :: base), line,
        some (qual ++ '.' :: short))) =
      some ((mid ++ '/' :: base) ++ ':' :: (Nat.repr line).toList
        ++ ' ' :: short ++ ['(', ')', ':', ' ']) := by
  have hmpos : 0 < mid.length := List.length_pos.mpr hne
  have hfile1 : pre ++ '/' :: (mid ++ '/' :: base) = (pre ++ '/' :: mid) ++ '/' :: base := by
    simp
  have hfile2 : pre ++ '/' :: (mid ++ '/' :: base) = (pre ++ ['/']) ++ (mid ++ '/' :: base) := by
    simp
  have hlast : lastIndexOf '/' (pre ++ '/' :: (mid ++ '/' :: base)) =
      some (pre.length + (mid.length + 1)) := by
    rw [hfile1, lastIndexOf_append_cons '/' base hb]
    simp
  have htake : (pre ++ '/' :: (mid ++ '/' :: base)).take (pre.length + (mid.length + 1) - 1) =
      pre ++ '/' :: mid.take (mid.length - 1) := by
    rw [hfile2]
    rw [show pre.length + (mid.length + 1) - 1 = (pre ++ ['/']).length + (mid.length - 1) by
      simp [List.length_append]; omega]
    rw [List.take_append]
    rw [List.take_append_of_le_length (by omega)]
    simp
  have hssi : lastIndexOf '/' (pre ++ '/' :: mid.take (mid.length - 1)) = some pre.length := by
    have hnotin : '/' ∉ mid.take (mid.length - 1) := fun hmem => hm (List.mem_of_mem_take hmem)
    exact lastIndexOf_append_cons '/' _ hnotin pre
  have hdrop : (pre ++ '/' :: (mid ++ '/' :: base)).drop (pre.length + 1) = mid ++ '/' :: base := by
    rw [hfile2]
    rw [show pre.length + 1 = (pre ++ ['/']).length + 0 by simp]
    rw [List.drop_append]
    rfl
  have h1 : cleanFilename (pre ++ '/' :: (mid ++ '/' :: base)) = some (mid ++ '/' :: base) := by
    simp only [cleanFilename, hlast]
    rw [if_neg (by omega)]
    rw [htake]
    simp only [hssi]
    rw [hdrop]
  have h2 : cleanFunName (qual ++ '.' :: short) = short := by
    simp only [cleanFunName, lastIndexOf_append_cons '.' short hq qual]
    rw [show qual ++ '.' :: short = (qual ++ ['.']) ++ short by simp]
    rw [show qual.length + 1 = (qual ++ ['.']).length + 0 by simp]
    rw [List.drop_append]
    rfl
  refine ⟨h1, h2, ?_⟩
  simp only [callsiteTag, h1, h2]

/-- C6 witness: the amended statement at the concrete resolved caller
`a/pkg/file.go:42` in function `mn.H`. -/
theorem C6_amended_witness :
    '/' ∉ (['p', 'k', 'g'] : List Char) ∧ '/' ∉ (['f', 'i', 'l', 'e', '.', 'g', 'o'] : List Char) ∧
    (['p', 'k', 'g'] : List Char) ≠ [] ∧ '.' ∉ (['H'] : List Char) ∧
    (cleanFilename (['a'] ++ '/' :: (['p', 'k', 'g'] ++ '/' :: ['f', 'i', 'l', 'e', '.', 'g', 'o'])) =
        some (['p', 'k', 'g'] ++ '/' :: ['f', 'i', 'l', 'e', '.', 'g', 'o']) ∧
      cleanFunName (['m', 'n'] ++ '.' :: ['H']) = ['H'] ∧
      callsiteTag (some (['a'] ++ '/' :: (['p', 'k', 'g'] ++ '/' :: ['f', 'i', 'l', 'e', '.', 'g', 'o']),
          42, some (['m', 'n'] ++ '.' :: ['H']))) =
        some ((['p', 'k', 'g'] ++ '/' :: ['f', 'i', 'l', 'e', '.', 'g', 'o'])
          ++ ':' :: (Nat.repr 42).toList ++ ' ' :: ['H'] ++ ['(', ')', ':', ' '])) :=
  ⟨by decide, by decide, by decide, by decide,
    C6_amended ['a'] ['p', 'k', 'g'] ['f', 'i', 'l', 'e', '.', 'g', 'o'] ['m', 'n'] ['H'] 42
      (by decide) (by decide) (by decide) (by decide)⟩

/-- C7 counterexample: only one trailing newline is stripped from the
format string, so a format ending in two newlines hands the sinks text
that still ends with a newline. -/
theorem C7_counterexample :
    formatMessage [] ("hi\n\n".toList) [] = some ("hi\n".toList) ∧
    ("hi\n".toList).getLast? = some '\n' := by
  decide

/-- C7 amended: exactly one trailing newline is removed from the format
string before the arguments are applied; for a verb-free format ending in a
single newline (and a tag not ending in one) the text handed to the sinks
has no trailing newline. -/
theorem C7_amended (tag format : List Char)
    (h0 : tag.getLast? ≠ some '\n')
    (h1 : format.getLast? = some '\n')
    (h2 : format.dropLast.getLast? ≠ some '\n')
    (h3 : '%' ∉ format) :
    formatMessage tag format [] = some (tag ++ format.dropLast) ∧
    (tag ++ format.dropLast).getLast? ≠ some '\n' := by
  have hdl : '%' ∉ format.dropLast := fun hmem => h3 (List.dropLast_subset _ hmem)
  constructor
  · simp [formatMessage, stripTrailingNL, h1, sprintf_no_pct [] _ hdl]
  · rw [List.getLast?_append]
    cases hF : format.dropLast.getLast? with
    | none => simpa using h0
    | some x =>
      simp only [Option.or_some]
      intro hcontra
      exact h2 (hF.trans hcontra)

/-- C7 witness: the amended statement at the empty tag and the concrete
format string of an `x` followed by one newline. -/
theorem C7_amended_witness :
    ([] : List Char).getLast? ≠ some '\n' ∧
    (['x', '\n'] : List Char).getLast? = some '\n' ∧
    (['x', '\n'] : List Char).dropLast.getLast? ≠ some '\n' ∧
    '%' ∉ (['x', '\n'] : List Char) ∧
    (formatMessage [] ['x', '\n'] [] = some ([] ++ (['x', '\n'] : List Char).dropLast) ∧
      (([] : List Char) ++ (['x', '\n'] : List Char).dropLast).getLast? ≠ some '\n') :=
  ⟨by decide, by decide, by decide, by decide,
    C7_amended [] ['x', '\n'] (by decide) (by decide) (by decide) (by decide)⟩

/-- C8: `sendEmail` aborts silently — no transport started and the
rate-limit ledger left untouched — exactly when the effective mail-to or
mail-from (the handle's override when non-empty, else the global value) is
empty; past that check the ledger's new state is whatever the rate limiter
left for the effective recipient. -/
theorem C8_sendEmail_abort (d : Diag) (cf : Config) (pg : String) (now : Int)
    (ledger : List (String × Int)) :
    (sendEmail d cf pg now ledger = (EmailOutcome.aborted, ledger) ↔
      (if d.mailTo = "" then cf.MailTo else d.mailTo) = "" ∨
      (if d.mailFrom = "" then cf.MailFrom else d.mailFrom) = "") ∧
    (sendEmail d cf pg now ledger).2 =
      (if (if d.mailTo = "" then cf.MailTo else d.mailTo) = "" ∨
          (if d.mailFrom = "" then cf.MailFrom else d.mailFrom) = ""
       then ledger
       else (rateLimited cf now ledger
         (if d.mailTo = "" then cf.MailTo else d.mailTo)).2) := by
  by_cases hc : (if d.mailTo = "" then cf.MailTo else d.mailTo) = "" ∨
      (if d.mailFrom = "" then cf.MailFrom else d.mailFrom) = ""
  · constructor
    · simp [sendEmail, hc]
    · simp [sendEmail, hc]
  · constructor
    · simp only [sendEmail, if_neg hc]
      constructor
      · intro h
        exfalso
        revert h
        cases hr : (rateLimited cf now ledger
            (if d.mailTo = "" then cf.MailTo else d.mailTo)).1 <;> simp
      · intro h
        exact absurd h hc
    · simp only [sendEmail, if_neg hc]
      split <;> split <;> rfl

/-- C9: `SetConfig` replaces the configuration read by later calls; only
when the syslog sink is closed does it try to open one, by a
case-insensitive lookup of the new facility name in the fixed table (an
unknown or empty name leaves the sink closed); and afterwards a Verbose
call with a nonempty format still dispatches, writing to stderr whenever
the handle enables it. -/
theorem C9_setConfig (cf : Config) (st : GlobalState) :
    (SetConfig cf st).config = cf ∧
    (SetConfig cf st).slog =
      (if st.slog = none then facGet prioName cf.Facility.toLower else st.slog) ∧
    ∀ (d : Diag) (c : Char) (fmt : List Char) (args : List (List Char)), ∃ out,
      diag (dispatchConf .verbose) d none (c :: fmt) args (SetConfig cf st).slog =
        some { stderrOut := if d.useStderr then some out else none,
               syslogOut := if (SetConfig cf st).slog.isSome
                            then some (Priority.info, out) else none,
               emailReq := false } := by
  refine ⟨?_, ?_, ?_⟩
  · by_cases h : st.slog = none <;>
      cases hf : facGet prioName cf.Facility.toLower <;>
        simp [SetConfig, openSyslog, h, hf]
  · by_cases h : st.slog = none <;>
      cases hf : facGet prioName cf.Facility.toLower <;>
        simp [SetConfig, openSyslog, h, hf]
  · intro d c fmt args
    obtain ⟨x, hx⟩ := getLast?_cons_isSome c fmt
    by_cases hnl : x = '\n'
    · refine ⟨sprintf (c :: fmt).dropLast args, ?_⟩
      simp [diag, dispatchConf, formatMessage, stripTrailingNL, hx, hnl]
    · refine ⟨sprintf (c :: fmt) args, ?_⟩
      simp [diag, dispatchConf, formatMessage, stripTrailingNL, hx, hnl]

/-- C10: `SetDebugFlag` panics (assignment to an entry of a nil map) exactly
when the current configuration's `Debug` map is nil — in particular in the
initial state `&Config{}`, whose `Debug` is nil. -/
theorem C10_setDebugFlag_nil (f : String) (v : Bool) (cf : Config) :
    (SetDebugFlag f v cf = none ↔ cf.Debug = none) ∧
    initialConfig.Debug = none ∧
    SetDebugFlag f v initialConfig = none := by
  refine ⟨?_, rfl, rfl⟩
  obtain ⟨mt, mf, mrl, sm, fac, pn, dbg⟩ := cf
  cases dbg <;> simp [SetDebugFlag]

end Acdiag
